import Mathlib

/-!
# Verification of the Raft role engine (`pkg/raft/raft.go`)

A shallow embedding of the per-replica Raft state machine from
`src/pkg/raft/raft.go`, together with theorems settling the frozen claims
about it. Machine integers are modelled as `Nat` (the Go code uses `uint64`
indices and terms that never overflow in practice), fallible paths return
explicit results, and the internal `panic` calls of the source are modelled
by a sticky `panicked` flag on the state.

The repository snapshot contains only `raft.go`; the helper packages it
builds on (`raftLog` in `log.go`, the `tracker` and `quorum` packages) are
modelled from the specification, and each such definition carries a doc
comment starting with `Modelled from the spec:`.
-/

namespace Raft

/-- Peer identifier; `0` is `None` (raft.go `None pb.PeerID = 0`). -/
abbrev PeerID := Nat

/-- Role of a node in the cluster (raft.go `StateType`). -/
inductive StateType where
  | StateFollower
  | StateCandidate
  | StateLeader
  | StatePreCandidate
deriving DecidableEq

/-- Message types of the protocol (raftpb message types used by raft.go). -/
inductive MessageType where
  | MsgHup
  | MsgBeat
  | MsgProp
  | MsgApp
  | MsgAppResp
  | MsgVote
  | MsgVoteResp
  | MsgSnap
  | MsgHeartbeat
  | MsgHeartbeatResp
  | MsgUnreachable
  | MsgSnapStatus
  | MsgCheckQuorum
  | MsgTransferLeader
  | MsgTimeoutNow
  | MsgPreVote
  | MsgPreVoteResp
  | MsgStorageAppendResp
  | MsgStorageApplyResp
  | MsgForgetLeader
deriving DecidableEq

/-- Entry types (raftpb `EntryNormal`, `EntryConfChange`, `EntryConfChangeV2`). -/
inductive EntryType where
  | EntryNormal
  | EntryConfChange
  | EntryConfChangeV2
deriving DecidableEq

/-- Campaign types (raft.go `CampaignType`). -/
inductive CampaignType where
  | campaignPreElection
  | campaignElection
  | campaignTransfer
deriving DecidableEq

/-- A log entry. `payload` is the byte size of the opaque `Data` field
(what `payloadSize` measures in the source); `ccChanges` is the number of
changes obtained when `Data` is decoded as a `ConfChangeV2` (what
`cc.AsV2().Changes` exposes), relevant only for conf-change entries. -/
structure Entry where
  term : Nat := 0
  index : Nat := 0
  typ : EntryType := .EntryNormal
  payload : Nat := 0
  ccChanges : Nat := 0
deriving DecidableEq

/-- An entry identifier `(term, index)` (the source `entryID`). -/
structure EntryID where
  term : Nat := 0
  index : Nat := 0
deriving DecidableEq

/-- A log mark `(term, index)`: an index as observed under an accepted
leader term (the source `logMark`). -/
structure LogMark where
  term : Nat := 0
  index : Nat := 0
deriving DecidableEq

/-- A contiguous slice of the log anchored at `prev`, appended under leader
term `term` (the source `logSlice`). -/
structure LogSlice where
  term : Nat := 0
  prev : EntryID := {}
  entries : List Entry := []
deriving DecidableEq

/-- Snapshot metadata: last included entry id plus the `ConfState`
(raftpb `Snapshot`; the opaque payload is not modelled). -/
structure Snap where
  index : Nat := 0
  term : Nat := 0
  voters : List PeerID := []
  learners : List PeerID := []
  votersOutgoing : List PeerID := []
deriving DecidableEq

/-- Context attached to campaign messages: either empty or the
`CampaignTransfer` marker bytes. -/
inductive MsgContext where
  | empty
  | transfer
deriving DecidableEq

/-- A protocol message (raftpb `Message`). Field defaults are the Go
zero values. -/
structure Message where
  typ : MessageType := .MsgHup
  To : PeerID := 0
  From : PeerID := 0
  Term : Nat := 0
  LogTerm : Nat := 0
  Index : Nat := 0
  Entries : List Entry := []
  Commit : Nat := 0
  Match : Nat := 0
  Reject : Bool := false
  RejectHint : Nat := 0
  Context : MsgContext := .empty
  Snapshot : Option Snap := none
deriving DecidableEq

/-- The error surfaced by `Step` (raft.go `ErrProposalDropped`). -/
inductive RaftError where
  | ProposalDropped
deriving DecidableEq

/-! ## The log store view

Modelled from the spec: the `raftLog` type lives in `log.go`, which is not
part of the source snapshot; §4.1 of the spec describes its contract. The
log is a snapshot prefix `(snapIndex, snapTerm)` followed by the in-memory
list of entries, where the entry at log index `snapIndex + k + 1` sits at
list position `k`; the stable/unstable split is summarized by
`hasPendingSnap` (the `hasNextOrInProgressSnapshot` test used by
`promotable`). -/

/-- Modelled from the spec: the `raftLog` state (§4.1). `accTermV` is the
accepted term — the term of the leader whose appends populated the current
log suffix, updated whenever `append`/`maybeAppend` succeeds. -/
structure RaftLog where
  snapIndex : Nat := 0
  snapTerm : Nat := 0
  entries : List Entry := []
  committed : Nat := 0
  applied : Nat := 0
  accTermV : Nat := 0
  hasPendingSnap : Bool := false
deriving DecidableEq

namespace RaftLog

/-- Last index of the log: snapshot index plus the number of entries. -/
def lastIndex (l : RaftLog) : Nat := l.snapIndex + l.entries.length

/-- The entry stored at log index `i`, when `i` is in the entry range. -/
def entryAt (l : RaftLog) (i : Nat) : Option Entry :=
  if i ≤ l.snapIndex then none else l.entries.get? (i - l.snapIndex - 1)

/-- Modelled from the spec: `term(index)` (§4.1). Returns `none` below the
snapshot index (`Compacted`) or above the last index (`Unavailable`); the
snapshot index itself carries the snapshot term. -/
def termOpt (l : RaftLog) (i : Nat) : Option Nat :=
  if i < l.snapIndex then none
  else if i = l.snapIndex then some l.snapTerm
  else (l.entryAt i).map (·.term)

/-- The term at index `i` with errors collapsed to `0`
(the source `zeroTermOnOutOfBounds`). -/
def termAt (l : RaftLog) (i : Nat) : Nat := (l.termOpt i).getD 0

/-- Modelled from the spec: `lastEntryID()` (§4.1) — the id of the last
entry, falling back to the snapshot metadata for an empty list. -/
def lastEntryID (l : RaftLog) : EntryID :=
  { term := l.termAt l.lastIndex, index := l.lastIndex }

/-- Modelled from the spec: `matchTerm(eid)` (§4.1) — an equality check of
the stored term at `eid.index`; false when the index is not covered. -/
def matchTerm (l : RaftLog) (e : EntryID) : Bool := l.termOpt e.index = some e.term

/-- Modelled from the spec: `commitTo(mark)` (§4.1) — raises `committed` to
`min(mark.index, lastIndex())` and never regresses. The accepted-term gate
the spec attaches here is applied by the callers in `raft.go` (see
`handleHeartbeat` and the TODO there about moving it into `commitTo`). -/
def commitTo (l : RaftLog) (mark : LogMark) : RaftLog :=
  if l.committed < mark.index then
    { l with committed := min mark.index l.lastIndex }
  else l

/-- Modelled from the spec: `findConflictByTerm(index, term)` (§4.1) — the
largest `index' ≤ index` whose stored term is `≤ term`, scanning downward;
an index whose term is unknown (compacted) is returned with term `0`. -/
def findConflictByTerm (l : RaftLog) : Nat → Nat → Nat × Nat
  | 0, _ => (0, 0)
  | i + 1, t =>
    match l.termOpt (i + 1) with
    | none => (i + 1, 0)
    | some ot => if ot ≤ t then (i + 1, ot) else l.findConflictByTerm i t

/-- Modelled from the spec: `isUpToDate(candidate)` — the Raft up-to-date
rule used for vote granting (§4.3.3): the candidate's last entry id is at
least as up-to-date as ours. -/
def isUpToDate (l : RaftLog) (their : EntryID) : Prop :=
  let our := l.lastEntryID
  our.term < their.term ∨ (their.term = our.term ∧ our.index ≤ their.index)

instance (l : RaftLog) (their : EntryID) : Decidable (l.isUpToDate their) := by
  unfold isUpToDate; infer_instance

/-- The number of leading slice entries already present in the log with
matching terms, starting right after `prevIndex`. -/
def matchLen (l : RaftLog) (prevIndex : Nat) : List Entry → Nat
  | [] => 0
  | e :: rest =>
    if l.termOpt (prevIndex + 1) = some e.term then
      1 + l.matchLen (prevIndex + 1) rest
    else 0

end RaftLog

/-- Last index covered by a log slice. -/
def LogSlice.lastIndex (a : LogSlice) : Nat := a.prev.index + a.entries.length

/-- Validity of a slice continuation: indices contiguous and terms
non-decreasing starting from `prev` (the entry loop of the source
`logSlice.valid`). -/
def validFrom (prev : EntryID) : List Entry → Bool
  | [] => true
  | e :: rest =>
    prev.term ≤ e.term && e.index = prev.index + 1 &&
      validFrom { term := e.term, index := e.index } rest

/-- The id of the last entry of a slice, falling back to `prev`. -/
def LogSlice.lastEntryID (a : LogSlice) : EntryID :=
  match a.entries.getLast? with
  | some e => { term := e.term, index := e.index }
  | none => a.prev

/-- `logSlice.valid()`: entries contiguous with non-decreasing terms, all
of them at most the slice's leader term. -/
def LogSlice.valid (a : LogSlice) : Bool :=
  validFrom a.prev a.entries && a.lastEntryID.term ≤ a.term

namespace RaftLog

/-- Modelled from the spec: `maybeAppend(slice)` (§4.1) — follower-side
append. Fails iff the log does not match the slice's `prev` id; otherwise
skips the already-matching prefix of the slice, truncates the conflicting
suffix of the log, appends the remaining tail, and updates the accepted
term to the slice's leader term. A fully contained slice is a no-op
(idempotent). -/
def maybeAppend (l : RaftLog) (a : LogSlice) : Bool × RaftLog :=
  if l.matchTerm a.prev then
    let n := l.matchLen a.prev.index a.entries
    let rest := a.entries.drop n
    if rest.isEmpty then (true, { l with accTermV := a.term })
    else
      (true, { l with
        entries := l.entries.take (a.prev.index + n - l.snapIndex) ++ rest,
        accTermV := a.term })
  else (false, l)

/-- Modelled from the spec: `append(slice)` (§4.1) — leader-side append of
a block anchored exactly at the current last entry id; fails iff the slice
is invalid or not anchored there. -/
def append (l : RaftLog) (a : LogSlice) : Bool × RaftLog :=
  if a.valid ∧ a.prev = l.lastEntryID then
    (true, { l with entries := l.entries ++ a.entries, accTermV := a.term })
  else (false, l)

end RaftLog

/-! ## Progress tracking and quorums

Modelled from the spec: the `tracker` and `quorum` packages are not part of
the source snapshot; §4.2 and the glossary describe them. -/

/-- Per-follower replication mode (§4.2). -/
inductive ProgressState where
  | StateProbe
  | StateReplicate
  | StateSnapshot
deriving DecidableEq

/-- Modelled from the spec: per-peer replication progress (§3 / §4.2).
The in-flight window is summarized by a message count and byte count;
`sentCommit` is the highest commit index sent to the peer (used by the
"commit advancement" clause of `ShouldSendMsgApp`). -/
structure Progress where
  Match : Nat := 0
  Next : Nat := 1
  State : ProgressState := .StateProbe
  RecentActive : Bool := false
  MsgAppProbesPaused : Bool := false
  PendingSnapshot : Nat := 0
  IsLearner : Bool := false
  inflightCount : Nat := 0
  inflightBytes : Nat := 0
  sentCommit : Nat := 0
deriving DecidableEq

namespace Progress

/-- Modelled from the spec: `BecomeProbe` (§4.2) — one outstanding probe,
no pipelining; coming out of `Snapshot` the probe resumes after the
pending snapshot index. -/
def BecomeProbe (pr : Progress) : Progress :=
  if pr.State = .StateSnapshot then
    { pr with
      State := .StateProbe
      Next := max (pr.Match + 1) (pr.PendingSnapshot + 1)
      PendingSnapshot := 0
      inflightCount := 0
      inflightBytes := 0
      MsgAppProbesPaused := false }
  else
    { pr with
      State := .StateProbe
      Next := pr.Match + 1
      PendingSnapshot := 0
      inflightCount := 0
      inflightBytes := 0
      MsgAppProbesPaused := false }

/-- Modelled from the spec: `BecomeReplicate` (§4.2) — pipelined
replication starting right after `Match`. -/
def BecomeReplicate (pr : Progress) : Progress :=
  { pr with
    State := .StateReplicate
    Next := pr.Match + 1
    PendingSnapshot := 0
    inflightCount := 0
    inflightBytes := 0
    MsgAppProbesPaused := false }

/-- Modelled from the spec: `BecomeSnapshot(i)` (§4.2) — awaiting a
snapshot apply, with `PendingSnapshot = i`. -/
def BecomeSnapshot (pr : Progress) (i : Nat) : Progress :=
  { pr with
    State := .StateSnapshot
    PendingSnapshot := i
    inflightCount := 0
    inflightBytes := 0
    MsgAppProbesPaused := false }

/-- `MaybeUpdate(n)`: raise `Match`/`Next` on an acknowledgment; returns
whether `Match` advanced (tracker `Progress.MaybeUpdate`). -/
def MaybeUpdate (pr : Progress) (n : Nat) : Bool × Progress :=
  if pr.Match < n then
    (true, { pr with
      Match := n
      Next := max pr.Next (n + 1)
      MsgAppProbesPaused := false })
  else (false, { pr with Next := max pr.Next (n + 1) })

/-- `MaybeDecrTo(rejected, matchHint)`: back off `Next` after a rejection,
as far as the hint allows in one round (tracker `Progress.MaybeDecrTo`). -/
def MaybeDecrTo (pr : Progress) (rejected matchHint : Nat) : Bool × Progress :=
  if pr.State = .StateReplicate then
    if rejected ≤ pr.Match then (false, pr)
    else (true, { pr with Next := pr.Match + 1 })
  else
    if pr.Next - 1 ≠ rejected then (false, pr)
    else (true, { pr with
      Next := max (min rejected (matchHint + 1)) (pr.Match + 1)
      MsgAppProbesPaused := false })

/-- Modelled from the spec: `ShouldSendMsgApp(last, commit)` (§4.2 together
with the `maybeSendAppend` contract in raft.go): suppress in `Snapshot`
state; in `Probe` require no outstanding probe or a commit advancement; in
`Replicate` require in-flight window slack and something new to send
(entries past `Next` or a commit advancement). -/
def ShouldSendMsgApp (pr : Progress) (last commit maxInflight : Nat) : Prop :=
  match pr.State with
  | .StateSnapshot => False
  | .StateProbe => ¬pr.MsgAppProbesPaused ∨ pr.sentCommit < commit
  | .StateReplicate =>
      pr.inflightCount < maxInflight ∧ (pr.Next ≤ last ∨ pr.sentCommit < commit)

instance (pr : Progress) (last commit maxInflight : Nat) :
    Decidable (pr.ShouldSendMsgApp last commit maxInflight) := by
  unfold ShouldSendMsgApp; cases pr.State <;> infer_instance

/-- `CanSendEntries(last)`: whether entries may accompany the append
(probes and pipelining both allow entries while below `last`). -/
def CanSendEntries (pr : Progress) (last : Nat) : Prop :=
  pr.State ≠ .StateSnapshot ∧ pr.Next ≤ last

instance (pr : Progress) (last : Nat) : Decidable (pr.CanSendEntries last) := by
  unfold CanSendEntries; infer_instance

/-- `SentEntries(n, bytes)`: account for an append that carried `n`
entries (tracker `Progress.SentEntries`): bump `Next`, pause a probe,
record the in-flight message while replicating. -/
def SentEntries (pr : Progress) (n bytes : Nat) : Progress :=
  match pr.State with
  | .StateReplicate =>
      { pr with
        Next := pr.Next + n
        inflightCount := pr.inflightCount + (if 0 < n then 1 else 0)
        inflightBytes := pr.inflightBytes + bytes }
  | .StateProbe => { pr with Next := pr.Next + n, MsgAppProbesPaused := true }
  | .StateSnapshot => pr

/-- `SentCommit(c)`: record the commit index sent to the peer. -/
def SentCommit (pr : Progress) (c : Nat) : Progress := { pr with sentCommit := c }

end Progress

/-- Modelled from the spec: the (possibly joint) configuration (§3):
incoming voter set `voters`, outgoing voter set `votersOutgoing`
(non-empty exactly when joint), learners, and the joint auto-leave flag. -/
structure RConfig where
  voters : List PeerID := []
  votersOutgoing : List PeerID := []
  learners : List PeerID := []
  AutoLeave : Bool := false
deriving DecidableEq

/-- Modelled from the spec: the index committed by a majority of one voter
set — the largest index replicated on more than half of the voters. With
the `Match` values sorted descending this is the value at position
`⌊n/2⌋`. -/
def majorityCommitted (ms : List Nat) : Nat :=
  ((ms.insertionSort (fun a b => b ≤ a)).getD (ms.length / 2) 0)

/-- Modelled from the spec: outcome of tallying one majority's votes. -/
inductive VoteResult where
  | VotePending
  | VoteLost
  | VoteWon
deriving DecidableEq

/-- Modelled from the spec: tally of one voter set (§2, vote tracker):
won once a majority granted, lost once a majority can no longer be
reached, pending otherwise; an empty voter set has trivially won. -/
def majorityVoteResult (voters : List PeerID) (votes : List (PeerID × Bool)) :
    VoteResult :=
  if voters.isEmpty then .VoteWon
  else
    let granted := (voters.filter (fun id => votes.lookup id = some true)).length
    let rejected := (voters.filter (fun id => votes.lookup id = some false)).length
    let q := voters.length / 2 + 1
    if q ≤ granted then .VoteWon
    else if q ≤ granted + (voters.length - granted - rejected) then .VotePending
    else .VoteLost

/-- Modelled from the spec: joint tally — won/lost only when both voter
sets agree, pending otherwise (glossary: a quorum in both voter sets). -/
def jointVoteResult (c : RConfig) (votes : List (PeerID × Bool)) : VoteResult :=
  let r1 := majorityVoteResult c.voters votes
  let r2 := majorityVoteResult c.votersOutgoing votes
  if r1 = r2 then r1
  else if r1 = .VoteLost ∨ r2 = .VoteLost then .VoteLost
  else .VotePending

/-- The sorted list of voter ids of a (possibly joint) configuration
(`config.Voters.IDs()` followed by the sort in `campaign`). -/
def voterIDs (c : RConfig) : List PeerID :=
  ((c.voters ++ c.votersOutgoing).dedup).insertionSort (· ≤ ·)

/-! ## The replica state -/

/-- The per-replica state (the `raft` struct of raft.go). `votes` is the
election tracker's recorded votes; `randSeed` injects the randomness used
by `resetRandomizedElectionTimeout` (spec §9: the random source is a
constructor parameter); `panicked` models the fatal `panic` calls — once
set, the state is dead. -/
structure RaftState where
  id : PeerID := 1
  Term : Nat := 0
  Vote : PeerID := 0
  raftLog : RaftLog := {}
  maxMsgSize : Nat := 0
  maxUncommittedSize : Nat := 0
  config : RConfig := {}
  prs : List (PeerID × Progress) := []
  votes : List (PeerID × Bool) := []
  state : StateType := .StateFollower
  isLearner : Bool := false
  msgs : List Message := []
  msgsAfterAppend : List Message := []
  lead : PeerID := 0
  leadTransferee : PeerID := 0
  pendingConfIndex : Nat := 0
  disableConfChangeValidation : Bool := false
  uncommittedSize : Nat := 0
  electionElapsed : Nat := 0
  heartbeatElapsed : Nat := 0
  maxInflight : Nat := 0
  maxInflightBytes : Nat := 0
  checkQuorum : Bool := false
  preVote : Bool := false
  heartbeatTimeout : Nat := 0
  electionTimeout : Nat := 0
  randomizedElectionTimeout : Nat := 0
  disableProposalForwarding : Bool := false
  stepDownOnRemoval : Bool := false
  randSeed : Nat := 0
  panicked : Bool := false
deriving DecidableEq

/-- A fatal invariant violation (`panic` in the source): the transition is
refused and the state marked dead. -/
def panicState (r : RaftState) : RaftState := { r with panicked := true }

/-- `r.trk.Progress(id)`: the tracked progress of a peer, if any. -/
def progressOf (r : RaftState) (id : PeerID) : Option Progress := r.prs.lookup id

/-- Replace one peer's progress in the tracker. -/
def setProgress (r : RaftState) (id : PeerID) (f : Progress → Progress) : RaftState :=
  { r with prs := r.prs.map (fun p => if p.1 = id then (p.1, f p.2) else p) }

/-- `payloadsSize(entries)`: total byte size of the entries' payloads. -/
def payloadsSize (es : List Entry) : Nat := (es.map (·.payload)).sum

/-- Whether a message type belongs to the campaign family whose term is
set by the caller (`MsgVote`, `MsgVoteResp`, `MsgPreVote`,
`MsgPreVoteResp` in `send`). -/
def isVoteFamily (t : MessageType) : Prop :=
  t = .MsgVote ∨ t = .MsgVoteResp ∨ t = .MsgPreVote ∨ t = .MsgPreVoteResp

instance (t : MessageType) : Decidable (isVoteFamily t) := by
  unfold isVoteFamily; infer_instance

/-- Whether a message type is queued behind durable persistence
(`MsgAppResp`, `MsgVoteResp`, `MsgPreVoteResp` in `send`). -/
def isAfterAppendType (t : MessageType) : Prop :=
  t = .MsgAppResp ∨ t = .MsgVoteResp ∨ t = .MsgPreVoteResp

instance (t : MessageType) : Decidable (isAfterAppendType t) := by
  unfold isAfterAppendType; infer_instance

/-- `voteRespMsgType(t)`: the response type paired with a vote request
(only ever called on `MsgVote`/`MsgPreVote`). -/
def voteRespMsgType (t : MessageType) : MessageType :=
  match t with
  | .MsgPreVote => .MsgPreVoteResp
  | _ => .MsgVoteResp

/-- `raft.send(m)`: stamp the sender and term and enqueue the message.
Campaign-family messages must already carry a term and every other type
must not (violations panic); `MsgProp` is forwarded with no term attached;
vote responses, pre-vote responses and append responses join
`msgsAfterAppend`, everything else joins `msgs` (and must not be
self-addressed). -/
def send (r : RaftState) (m : Message) : RaftState :=
  let m := if m.From = 0 then { m with From := r.id } else m
  let enqueue := fun (m : Message) =>
    if isAfterAppendType m.typ then
      { r with msgsAfterAppend := r.msgsAfterAppend ++ [m] }
    else
      if m.To = r.id then panicState r
      else { r with msgs := r.msgs ++ [m] }
  if isVoteFamily m.typ then
    if m.Term = 0 then panicState r else enqueue m
  else
    if m.Term ≠ 0 then panicState r
    else enqueue (if m.typ = .MsgProp then m else { m with Term := r.Term })

/-- Modelled from the spec: `trk.Committed()` (§4.2) — the largest index
replicated on a quorum: the incoming voter set's majority-committed index,
intersected (`min`) with the outgoing set's when the configuration is
joint. A voter with no tracked progress counts as `Match = 0`. -/
def trkCommitted (r : RaftState) : Nat :=
  let matchOf := fun id => ((progressOf r id).getD {}).Match
  let inc := majorityCommitted (r.config.voters.map matchOf)
  if r.config.votersOutgoing.isEmpty then inc
  else min inc (majorityCommitted (r.config.votersOutgoing.map matchOf))

/-- Modelled from the spec: `trk.QuorumActive()` (§4.2) — a quorum of
voters has `RecentActive` set, in both voter sets when joint. -/
def quorumActive (r : RaftState) : Bool :=
  let votes := r.prs.map (fun p => (p.1, p.2.RecentActive))
  jointVoteResult r.config votes = .VoteWon

/-- `raft.maybeCommit()`: advance the commit index to the quorum-committed
index, but only under an entry of the leader's own term
(raft.go lines 731–749). -/
def maybeCommit (r : RaftState) : Bool × RaftState :=
  let index := trkCommitted r
  if index ≤ r.raftLog.committed then (false, r)
  else if ¬r.raftLog.matchTerm { term := r.Term, index := index } then (false, r)
  else (true, { r with raftLog := r.raftLog.commitTo { term := r.Term, index := index } })

/-- `raft.reset(term)`: adopt the term (clearing the vote when it
changes), clear leadership and timers, re-randomize the election timeout,
reset votes and per-peer progress, and clear the conf-change / quota
accounting (raft.go lines 751–781). -/
def reset (r : RaftState) (term : Nat) : RaftState :=
  let r := if r.Term ≠ term then { r with Term := term, Vote := 0 } else r
  let last := r.raftLog.lastIndex
  { r with
    lead := 0
    electionElapsed := 0
    heartbeatElapsed := 0
    randomizedElectionTimeout := r.electionTimeout + r.randSeed % r.electionTimeout
    leadTransferee := 0
    votes := []
    prs := r.prs.map (fun p =>
      (p.1, { Match := if p.1 = r.id then last else 0
              Next := last + 1
              IsLearner := p.2.IsLearner }))
    pendingConfIndex := 0
    uncommittedSize := 0 }

/-- `raft.increaseUncommittedSize(ents)`: refuse a non-empty payload that
would push a non-empty uncommitted tail over the limit; otherwise account
for it (raft.go lines 2048–2062). -/
def increaseUncommittedSize (r : RaftState) (es : List Entry) : Bool × RaftState :=
  let s := payloadsSize es
  if 0 < r.uncommittedSize ∧ 0 < s ∧ r.maxUncommittedSize < r.uncommittedSize + s then
    (false, r)
  else (true, { r with uncommittedSize := r.uncommittedSize + s })

/-- `raft.reduceUncommittedSize(s)`: subtract committed payload bytes,
saturating at zero (raft.go lines 2066–2075). -/
def reduceUncommittedSize (r : RaftState) (s : Nat) : RaftState :=
  if r.uncommittedSize < s then { r with uncommittedSize := 0 }
  else { r with uncommittedSize := r.uncommittedSize - s }

/-- Stamp proposed entries with the leader's term and sequential indices
(the loop at the top of `appendEntry`). -/
def stampEntries (t : Nat) : Nat → List Entry → List Entry
  | _, [] => []
  | prevIndex, e :: rest =>
    { e with term := t, index := prevIndex + 1 } :: stampEntries t (prevIndex + 1) rest

/-- `raft.appendEntry(es)`: stamp the entries, check the uncommitted-size
quota (dropping the proposal when exceeded), append to the local log
(failure is fatal), advance the leader's own `Next`, and enqueue the
self-addressed `MsgAppResp` self-ack (raft.go lines 783–821). -/
def appendEntry (r : RaftState) (es : List Entry) : Bool × RaftState :=
  let last := r.raftLog.lastEntryID
  let es := stampEntries r.Term last.index es
  let (ok, r) := increaseUncommittedSize r es
  if ¬ok then (false, r)
  else
    let app : LogSlice := { term := r.Term, prev := last, entries := es }
    if ¬app.valid then (true, panicState r)
    else
      match r.raftLog.append app with
      | (false, _) => (true, panicState r)
      | (true, log) =>
        let r := { r with raftLog := log }
        let r := setProgress r r.id (fun pr => { pr with Next := app.lastIndex + 1 })
        let r := send r { typ := .MsgAppResp, To := r.id, Index := r.raftLog.lastIndex }
        (true, r)

/-- `raft.becomeFollower(term, lead)` (raft.go lines 870–877). -/
def becomeFollower (r : RaftState) (term : Nat) (lead : PeerID) : RaftState :=
  let r := reset r term
  { r with lead := lead, state := .StateFollower }

/-- `raft.becomeCandidate()`: panics on a direct Leader → Candidate
transition; otherwise bumps the term, votes for itself (raft.go
lines 879–890). -/
def becomeCandidate (r : RaftState) : RaftState :=
  if r.state = .StateLeader then panicState r
  else
    let r := reset r (r.Term + 1)
    { r with Vote := r.id, state := .StateCandidate }

/-- `raft.becomePreCandidate()`: panics on a direct Leader → PreCandidate
transition; otherwise changes only the vote tally, the leader and the
role — neither term nor vote (raft.go lines 892–910). -/
def becomePreCandidate (r : RaftState) : RaftState :=
  if r.state = .StateLeader then panicState r
  else { r with votes := [], lead := 0, state := .StatePreCandidate }

/-- `raft.becomeLeader()`: panics on a direct Follower → Leader
transition; otherwise resets at the current term, takes leadership,
moves its own progress to replicate mode, conservatively sets
`pendingConfIndex` to the last log index, and appends (and self-acks)
one empty entry at the new term (raft.go lines 912–949). -/
def becomeLeader (r : RaftState) : RaftState :=
  if r.state = .StateFollower then panicState r
  else
    let r := reset r r.Term
    let r := { r with lead := r.id, state := .StateLeader }
    let r := setProgress r r.id (fun pr => { pr.BecomeReplicate with RecentActive := true })
    let r := { r with pendingConfIndex := r.raftLog.lastIndex }
    match appendEntry r [{}] with
    | (false, r) => panicState r
    | (true, r) => r

/-- `raft.promotable()`: the replica may campaign — it is tracked, not a
learner, and has no pending unapplied snapshot (raft.go lines 1923–1926). -/
def promotable (r : RaftState) : Bool :=
  match progressOf r r.id with
  | none => false
  | some pr => !pr.IsLearner && !r.raftLog.hasPendingSnap

/-- `raft.hasUnappliedConfChanges()`: a committed-but-unapplied
conf-change entry exists in `(applied, committed]` (raft.go
lines 973–999; the paginated scan is modelled as one pass). -/
def hasUnappliedConfChanges (r : RaftState) : Bool :=
  if r.raftLog.committed ≤ r.raftLog.applied then false
  else
    (List.range' (r.raftLog.applied + 1) (r.raftLog.committed - r.raftLog.applied)).any
      (fun i => match r.raftLog.entryAt i with
        | some e => e.typ = .EntryConfChange ∨ e.typ = .EntryConfChangeV2
        | none => false)

/-- `raft.campaign(t)`: transition to (pre-)candidate and solicit votes
from every voter — a response-to-self for the own vote, a `MsgVote` or
`MsgPreVote` carrying the last entry id for everyone else; a transfer
campaign attaches the `CampaignTransfer` context (raft.go
lines 1003–1051). -/
def campaign (r : RaftState) (t : CampaignType) : RaftState :=
  let voteMsg : MessageType :=
    if t = .campaignPreElection then .MsgPreVote else .MsgVote
  let r := if t = .campaignPreElection then becomePreCandidate r else becomeCandidate r
  let term := if t = .campaignPreElection then r.Term + 1 else r.Term
  let last := r.raftLog.lastEntryID
  (voterIDs r.config).foldl (fun r id =>
    if id = r.id then
      send r { typ := voteRespMsgType voteMsg, To := id, Term := term }
    else
      send r { typ := voteMsg
               To := id
               Term := term
               Index := last.index
               LogTerm := last.term
               Context := if t = .campaignTransfer then .transfer else .empty }) r

/-- `raft.hup(t)`: start a campaign unless already leader, not promotable,
or a committed conf change is still unapplied (raft.go lines 951–968). -/
def hup (r : RaftState) (t : CampaignType) : RaftState :=
  if r.state = .StateLeader then r
  else if ¬promotable r then r
  else if hasUnappliedConfChanges r then r
  else campaign r t

/-- `logSliceFromMsgApp(m)`: the appended slice carried by a `MsgApp`
(raft.go lines 1693–1700). -/
def logSliceFromMsgApp (m : Message) : LogSlice :=
  { term := m.Term, prev := { term := m.LogTerm, index := m.Index }, entries := m.Entries }

/-- `raft.handleAppendEntries(m)`: check the leader's `match` claim
(fatal if our log is shorter), drop an invalid slice, trivially accept an
append below our commit index, otherwise `maybeAppend`: on success commit
to `min(m.commit, lastIndex)` and ack the last index, on rejection answer
with the conflict hint from `findConflictByTerm` (raft.go
lines 1702–1758). -/
def handleAppendEntries (r : RaftState) (m : Message) : RaftState :=
  if r.raftLog.lastIndex < m.Match then panicState r
  else
    let a := logSliceFromMsgApp m
    if ¬a.valid then r
    else if a.prev.index < r.raftLog.committed then
      send r { typ := .MsgAppResp, To := m.From, Index := r.raftLog.committed }
    else
      match r.raftLog.maybeAppend a with
      | (true, log) =>
        let lastIndex := a.lastIndex
        let log := log.commitTo { term := m.Term, index := min m.Commit lastIndex }
        send { r with raftLog := log } { typ := .MsgAppResp, To := m.From, Index := lastIndex }
      | (false, _) =>
        let hintIndex := min m.Index r.raftLog.lastIndex
        let hint := r.raftLog.findConflictByTerm hintIndex m.LogTerm
        send r { typ := .MsgAppResp
                 To := m.From
                 Index := m.Index
                 Reject := true
                 RejectHint := hint.1
                 LogTerm := hint.2 }

/-- `raft.handleHeartbeat(m)`: check the leader's `match` claim, raise the
commit index to `min(m.commit, lastIndex)` only when the last accepted
append came from this leader (`accTerm == m.term`), and respond
(raft.go lines 1774–1804). -/
def handleHeartbeat (r : RaftState) (m : Message) : RaftState :=
  if r.raftLog.lastIndex < m.Match then panicState r
  else
    let mark : LogMark := { term := m.Term, index := min m.Commit r.raftLog.lastIndex }
    let r :=
      if mark.term = r.raftLog.accTermV then
        { r with raftLog := r.raftLog.commitTo mark }
      else r
    send r { typ := .MsgHeartbeatResp, To := m.From }

/-- `raft.restore(s)`: reject an obsolete snapshot; fatal outside follower
state; refuse one whose conf state omits us; fast-forward the commit index
when our log already matches the snapshot's last entry; otherwise install
the snapshot and rebuild configuration and progress from its conf state
(raft.go lines 1835–1919; the `confchange.Restore` reconstruction is
modelled from the spec §4.3.5/§4.3.8: fresh peers start at
`(0, lastIndex + 1)`). -/
def restore (r : RaftState) (s : Snap) : Bool × RaftState :=
  if s.index ≤ r.raftLog.committed then (false, r)
  else if r.state ≠ .StateFollower then (false, panicState r)
  else if ¬(r.id ∈ s.voters ∨ r.id ∈ s.learners ∨ r.id ∈ s.votersOutgoing) then (false, r)
  else if r.raftLog.matchTerm { term := s.term, index := s.index } then
    (false, { r with raftLog := r.raftLog.commitTo { term := s.term, index := s.index } })
  else
    let log : RaftLog :=
      { snapIndex := s.index
        snapTerm := s.term
        entries := []
        committed := s.index
        applied := r.raftLog.applied
        accTermV := s.term
        hasPendingSnap := true }
    let ids := ((s.voters ++ s.votersOutgoing ++ s.learners).dedup).insertionSort (· ≤ ·)
    (true, { r with
      raftLog := log
      config := { voters := s.voters
                  votersOutgoing := s.votersOutgoing
                  learners := s.learners }
      prs := ids.map (fun id =>
        (id, { Next := log.lastIndex + 1, IsLearner := decide (id ∈ s.learners) }))
      isLearner := decide (r.id ∈ s.learners) })

/-- `raft.handleSnapshot(m)`: restore the carried snapshot and respond
with the new last index on success, with the commit index on refusal
(raft.go lines 1806–1830; a missing snapshot is treated as a zero-valued
one, which `restore` refuses). -/
def handleSnapshot (r : RaftState) (m : Message) : RaftState :=
  let s := m.Snapshot.getD {}
  match restore r s with
  | (true, r) => send r { typ := .MsgAppResp, To := m.From, Index := r.raftLog.lastIndex }
  | (false, r) =>
    if r.panicked then r
    else send r { typ := .MsgAppResp, To := m.From, Index := r.raftLog.committed }

/-- Modelled from the spec: byte-bounded entry fetch continuation —
keep entries while they fit in the remaining budget. -/
def takeSized : Nat → List Entry → List Entry
  | _, [] => []
  | budget, e :: rest =>
    if e.payload ≤ budget then e :: takeSized (budget - e.payload) rest else []

/-- Modelled from the spec: `entries(lo, maxSize)` (§4.1) — bounded by
`maxSize` bytes but always returning at least one entry. -/
def limitSize (maxSize : Nat) : List Entry → List Entry
  | [] => []
  | e :: rest => e :: takeSized (maxSize - e.payload) rest

/-- Modelled from the spec: the suffix of the log starting at index `lo`,
size-limited for one append message. -/
def logEntriesFrom (l : RaftLog) (lo maxSize : Nat) : List Entry :=
  limitSize maxSize (l.entries.drop (lo - l.snapIndex - 1))

/-- `raft.maybeSendSnapshot(to)`: suppressed for an inactive peer; moves
the peer to `Snapshot` state and emits `MsgSnap` (raft.go lines 626–651;
the storage round-trip is collapsed — the log's snapshot metadata plus the
current conf state stand in for `raftLog.snapshot()`, and the transient
unavailability path is not modelled). -/
def maybeSendSnapshot (r : RaftState) (dst : PeerID) : RaftState × Bool :=
  match progressOf r dst with
  | none => (r, false)
  | some pr =>
    if ¬pr.RecentActive then (r, false)
    else
      let s : Snap := { index := r.raftLog.snapIndex
                        term := r.raftLog.snapTerm
                        voters := r.config.voters
                        learners := r.config.learners
                        votersOutgoing := r.config.votersOutgoing }
      if s.index = 0 then (panicState r, false)
      else
        let r := setProgress r dst (fun pr => pr.BecomeSnapshot s.index)
        (send r { typ := .MsgSnap, To := dst, Snapshot := some s }, true)

/-- `raft.maybeSendAppend(to)`: send an append carrying the entries past
the peer's `Next` (a snapshot when they are compacted away), gated by
`ShouldSendMsgApp`; update the progress for what was sent (raft.go
lines 585–622). -/
def maybeSendAppend (r : RaftState) (dst : PeerID) : RaftState × Bool :=
  match progressOf r dst with
  | none => (r, false)
  | some pr =>
    let last := r.raftLog.lastIndex
    let commit := r.raftLog.committed
    if ¬pr.ShouldSendMsgApp last commit r.maxInflight then (r, false)
    else
      let prevIndex := pr.Next - 1
      match r.raftLog.termOpt prevIndex with
      | none => maybeSendSnapshot r dst
      | some prevTerm =>
        let entries :=
          if pr.CanSendEntries last then logEntriesFrom r.raftLog pr.Next r.maxMsgSize
          else []
        let r := send r { typ := .MsgApp
                          To := dst
                          Index := prevIndex
                          LogTerm := prevTerm
                          Entries := entries
                          Commit := commit
                          Match := pr.Match }
        let r := setProgress r dst (fun pr =>
          (pr.SentEntries entries.length (payloadsSize entries)).SentCommit commit)
        (r, true)

/-- The greedy pipelining loop `for r.maybeSendAppend(to) {}` of
`stepLeader`, with explicit fuel (the source loop terminates because each
round either advances `Next`, advances the sent commit index, or pauses
the flow; callers pass ample fuel). -/
def sendAppendLoop (r : RaftState) (dst : PeerID) : Nat → RaftState
  | 0 => r
  | fuel + 1 =>
    match maybeSendAppend r dst with
    | (r, true) => sendAppendLoop r dst fuel
    | (r, false) => r

/-- `raft.bcastAppend()`: `maybeSendAppend` to every other tracked peer
(raft.go lines 674–681). -/
def bcastAppend (r : RaftState) : RaftState :=
  (r.prs.map (·.1)).foldl (fun r id => if id = r.id then r else (maybeSendAppend r id).1) r

/-- `raft.sendHeartbeat(to)`: heartbeat with the commit index clamped to
the peer's `Match` (raft.go lines 654–670). -/
def sendHeartbeat (r : RaftState) (dst : PeerID) : RaftState :=
  match progressOf r dst with
  | none => r
  | some pr =>
    let commit := min pr.Match r.raftLog.committed
    let r := send r { typ := .MsgHeartbeat, To := dst, Commit := commit, Match := pr.Match }
    setProgress r dst (fun pr => pr.SentCommit commit)

/-- `raft.bcastHeartbeat()` (raft.go lines 684–691). -/
def bcastHeartbeat (r : RaftState) : RaftState :=
  (r.prs.map (·.1)).foldl (fun r id => if id = r.id then r else sendHeartbeat r id) r

/-- `raft.appliedTo(index)`: advance the applied marker, never backwards
(raft.go lines 693–720; the auto-leave self-proposal of a joint
configuration is not modelled — no claim depends on it). -/
def appliedTo (r : RaftState) (index : Nat) : RaftState :=
  { r with raftLog := { r.raftLog with applied := max index r.raftLog.applied } }

/-- `raft.appliedSnap(snap)`: mark the pending snapshot stable and applied
(raft.go lines 722–726). -/
def appliedSnap (r : RaftState) (index : Nat) : RaftState :=
  appliedTo { r with raftLog := { r.raftLog with hasPendingSnap := false } } index

/-- `raft.abortLeaderTransfer()` (raft.go lines 2036–2038). -/
def abortLeaderTransfer (r : RaftState) : RaftState := { r with leadTransferee := 0 }

/-- `raft.sendTimeoutNow(to)` (raft.go lines 2032–2034). -/
def sendTimeoutNow (r : RaftState) (dst : PeerID) : RaftState :=
  send r { typ := .MsgTimeoutNow, To := dst }

/-! ## Role-specific step functions -/

/-- `electionTracker.RecordVote`: record a vote once per peer. -/
def recordVote (r : RaftState) (id : PeerID) (v : Bool) : RaftState :=
  if (r.votes.lookup id).isSome then r else { r with votes := r.votes ++ [(id, v)] }

/-- The conf-change validation loop of `stepLeader`'s `MsgProp` case
(raft.go lines 1272–1319): a conf-change entry at batch position `i` is
rewritten in place to an empty normal entry when a conf change is already
pending, or — unless validation is disabled — when the joint-state checks
fail; an accepted one records `pendingConfIndex = lastIndex + i + 1`. -/
def validateConfChanges (r : RaftState) : Nat → List Entry → RaftState × List Entry
  | _, [] => (r, [])
  | i, e :: rest =>
    if e.typ = .EntryConfChange ∨ e.typ = .EntryConfChangeV2 then
      let alreadyPending := r.raftLog.applied < r.pendingConfIndex
      let alreadyJoint := ¬r.config.votersOutgoing.isEmpty
      let wantsLeaveJoint := e.ccChanges = 0
      let failedCheck := alreadyPending ∨ (alreadyJoint ∧ ¬wantsLeaveJoint) ∨
        (¬alreadyJoint ∧ wantsLeaveJoint)
      if alreadyPending ∨ (failedCheck ∧ ¬r.disableConfChangeValidation) then
        let (r, out) := validateConfChanges r (i + 1) rest
        (r, { typ := .EntryNormal } :: out)
      else
        let r := { r with pendingConfIndex := r.raftLog.lastIndex + i + 1 }
        let (r, out) := validateConfChanges r (i + 1) rest
        (r, e :: out)
    else
      let (r, out) := validateConfChanges r (i + 1) rest
      (r, e :: out)

/-- `stepLeader` (raft.go lines 1232–1586). -/
def stepLeader (r : RaftState) (m : Message) : RaftState × Option RaftError :=
  if m.typ = .MsgBeat then (bcastHeartbeat r, none)
  else if m.typ = .MsgCheckQuorum then
    let r := if ¬quorumActive r then becomeFollower r r.Term r.id else r
    let r := { r with prs := r.prs.map (fun p =>
      if p.1 = r.id then p else (p.1, { p.2 with RecentActive := false })) }
    (r, none)
  else if m.typ = .MsgProp then
    if m.Entries.isEmpty then (panicState r, none)
    else if (progressOf r r.id).isNone then (r, some .ProposalDropped)
    else if r.leadTransferee ≠ 0 then (r, some .ProposalDropped)
    else
      let (r, es) := validateConfChanges r 0 m.Entries
      match appendEntry r es with
      | (false, r) => (r, some .ProposalDropped)
      | (true, r) => (bcastAppend r, none)
  else if m.typ = .MsgForgetLeader then (r, none)
  else
    match progressOf r m.From with
    | none => (r, none)
    | some pr =>
      if m.typ = .MsgAppResp then
        let pr := { pr with RecentActive := true }
        if m.Reject then
          let nextProbeIdx :=
            if 0 < m.LogTerm then (r.raftLog.findConflictByTerm m.RejectHint m.LogTerm).1
            else m.RejectHint
          let (dec, pr) := pr.MaybeDecrTo m.Index nextProbeIdx
          if dec then
            let pr := if pr.State = .StateReplicate then pr.BecomeProbe else pr
            let r := setProgress r m.From (fun _ => pr)
            ((maybeSendAppend r m.From).1, none)
          else (setProgress r m.From (fun _ => pr), none)
        else
          let (updated, pr) := pr.MaybeUpdate m.Index
          if updated ∨ (pr.Match = m.Index ∧ pr.State = .StateProbe) then
            let pr :=
              if pr.State = .StateProbe then pr.BecomeReplicate
              else if pr.State = .StateSnapshot ∧ r.raftLog.snapIndex ≤ pr.Match then
                pr.BecomeProbe.BecomeReplicate
              else if pr.State = .StateReplicate then
                { pr with inflightCount := 0, inflightBytes := 0 }
              else pr
            let r := setProgress r m.From (fun _ => pr)
            let cr := maybeCommit r
            let r := if cr.1 then bcastAppend cr.2 else cr.2
            let r :=
              if r.id ≠ m.From then
                sendAppendLoop r m.From (r.raftLog.lastIndex + r.maxInflight + 2)
              else r
            let prNow := (progressOf r m.From).getD pr
            let r :=
              if m.From = r.leadTransferee ∧ prNow.Match = r.raftLog.lastIndex then
                sendTimeoutNow r m.From
              else r
            (r, none)
          else (setProgress r m.From (fun _ => pr), none)
      else if m.typ = .MsgHeartbeatResp then
        let r := setProgress r m.From (fun pr =>
          { pr with RecentActive := true, MsgAppProbesPaused := false })
        ((maybeSendAppend r m.From).1, none)
      else if m.typ = .MsgSnapStatus then
        if pr.State ≠ .StateSnapshot then (r, none)
        else
          let pr := if ¬m.Reject then pr.BecomeProbe
                    else (Progress.BecomeProbe { pr with PendingSnapshot := 0 })
          let pr := { pr with MsgAppProbesPaused := true }
          (setProgress r m.From (fun _ => pr), none)
      else if m.typ = .MsgUnreachable then
        let pr := if pr.State = .StateReplicate then pr.BecomeProbe else pr
        (setProgress r m.From (fun _ => pr), none)
      else if m.typ = .MsgTransferLeader then
        if pr.IsLearner then (r, none)
        else if r.leadTransferee ≠ 0 ∧ r.leadTransferee = m.From then (r, none)
        else
          let r := if r.leadTransferee ≠ 0 then abortLeaderTransfer r else r
          if m.From = r.id then (r, none)
          else
            let r := { r with electionElapsed := 0, leadTransferee := m.From }
            if pr.Match = r.raftLog.lastIndex then (sendTimeoutNow r m.From, none)
            else
              let r := setProgress r m.From (fun pr => { pr with MsgAppProbesPaused := false })
              ((maybeSendAppend r m.From).1, none)
      else (r, none)

/-- `stepCandidate`, shared by candidates and pre-candidates — only the
vote-response type they react to differs (raft.go lines 1590–1633). -/
def stepCandidate (r : RaftState) (m : Message) : RaftState × Option RaftError :=
  let myVoteRespType : MessageType :=
    if r.state = .StatePreCandidate then .MsgPreVoteResp else .MsgVoteResp
  if m.typ = .MsgProp then (r, some .ProposalDropped)
  else if m.typ = .MsgApp then
    (handleAppendEntries (becomeFollower r m.Term m.From) m, none)
  else if m.typ = .MsgHeartbeat then
    (handleHeartbeat (becomeFollower r m.Term m.From) m, none)
  else if m.typ = .MsgSnap then
    (handleSnapshot (becomeFollower r m.Term m.From) m, none)
  else if m.typ = myVoteRespType then
    let r := recordVote r m.From (¬m.Reject)
    match jointVoteResult r.config r.votes with
    | .VoteWon =>
      if r.state = .StatePreCandidate then (campaign r .campaignElection, none)
      else (bcastAppend (becomeLeader r), none)
    | .VoteLost => (becomeFollower r r.Term r.lead, none)
    | .VotePending => (r, none)
  else (r, none)

/-- `stepFollower` (raft.go lines 1635–1690). -/
def stepFollower (r : RaftState) (m : Message) : RaftState × Option RaftError :=
  match m.typ with
  | .MsgProp =>
    if r.lead = 0 then (r, some .ProposalDropped)
    else if r.disableProposalForwarding then (r, some .ProposalDropped)
    else if r.lead = r.id then (r, some .ProposalDropped)
    else (send r { m with To := r.lead }, none)
  | .MsgApp =>
    (handleAppendEntries { r with electionElapsed := 0, lead := m.From } m, none)
  | .MsgHeartbeat =>
    (handleHeartbeat { r with electionElapsed := 0, lead := m.From } m, none)
  | .MsgSnap =>
    (handleSnapshot { r with electionElapsed := 0, lead := m.From } m, none)
  | .MsgTransferLeader =>
    if r.lead = 0 then (r, none)
    else if r.lead = r.id then (r, none)
    else (send r { m with To := r.lead }, none)
  | .MsgForgetLeader =>
    (if r.lead ≠ 0 then { r with lead := 0 } else r, none)
  | .MsgTimeoutNow => (hup r .campaignTransfer, none)
  | _ => (r, none)

/-- The role dispatch `r.step` — the function pointer installed by the
`become*` transitions, encoded as a dispatch on `state` (spec §9 design
note). -/
def stepRole (r : RaftState) (m : Message) : RaftState × Option RaftError :=
  match r.state with
  | .StateLeader => stepLeader r m
  | .StateFollower => stepFollower r m
  | .StateCandidate => stepCandidate r m
  | .StatePreCandidate => stepCandidate r m

/-- The `MsgVote`/`MsgPreVote` case of `Step`'s common handler (raft.go
lines 1169–1219): grant when the vote can be cast — a repeat vote, a free
vote with no known leader, or a pre-vote for a future term — and the
candidate's log is up to date. A granted response carries the message's
term; a real granted vote also records the vote and resets the election
timer. A rejection carries our own term. -/
def stepVoteRequest (r : RaftState) (m : Message) : RaftState :=
  let canVote := r.Vote = m.From ∨ (r.Vote = 0 ∧ r.lead = 0) ∨
    (m.typ = .MsgPreVote ∧ r.Term < m.Term)
  if canVote ∧ r.raftLog.isUpToDate { term := m.LogTerm, index := m.Index } then
    let r := send r { typ := voteRespMsgType m.typ, To := m.From, Term := m.Term }
    if m.typ = .MsgVote then { r with electionElapsed := 0, Vote := m.From } else r
  else
    send r { typ := voteRespMsgType m.typ, To := m.From, Term := r.Term, Reject := true }

/-- The common-handler stage of `Step` (raft.go lines 1144–1227): `MsgHup`
campaigns, storage acknowledgments advance markers, vote requests go to
the voting rule, everything else to the role-specific step function. The
`stableTo` call of `MsgStorageAppendResp` is not represented — the log
model does not track the durable prefix. -/
def stepCommon (r : RaftState) (m : Message) : RaftState × Option RaftError :=
  match m.typ with
  | .MsgHup =>
    (hup r (if r.preVote then .campaignPreElection else .campaignElection), none)
  | .MsgStorageAppendResp =>
    (match m.Snapshot with
     | some s => appliedSnap r s.index
     | none => r, none)
  | .MsgStorageApplyResp =>
    if m.Entries.isEmpty then (r, none)
    else
      let r := appliedTo r ((m.Entries.getLast?.map (·.index)).getD 0)
      (reduceUncommittedSize r (payloadsSize m.Entries), none)
  | .MsgVote => (stepVoteRequest r m, none)
  | .MsgPreVote => (stepVoteRequest r m, none)
  | _ => stepRole r m

/-- `raft.Step(m)` (raft.go lines 1065–1228): term normalization — the
in-lease vote rejection, the pre-vote exemptions, or stepping down to
follower on a higher term; stale-term handling — nudging a stale leader or
rejecting a stale pre-vote; then the common handlers. -/
def Step (r : RaftState) (m : Message) : RaftState × Option RaftError :=
  if m.Term = 0 then stepCommon r m
  else if r.Term < m.Term then
    if (m.typ = .MsgVote ∨ m.typ = .MsgPreVote) ∧ m.Context ≠ .transfer ∧
        r.checkQuorum = true ∧ r.lead ≠ 0 ∧ r.electionElapsed < r.electionTimeout then
      (r, none)
    else
      let r :=
        if m.typ = .MsgPreVote then r
        else if m.typ = .MsgPreVoteResp ∧ ¬m.Reject then r
        else becomeFollower r m.Term
          (if m.typ = .MsgApp ∨ m.typ = .MsgHeartbeat ∨ m.typ = .MsgSnap then m.From else 0)
      stepCommon r m
  else if m.Term < r.Term then
    if (r.checkQuorum ∨ r.preVote) ∧ (m.typ = .MsgHeartbeat ∨ m.typ = .MsgApp) then
      (send r { typ := .MsgAppResp, To := m.From }, none)
    else if m.typ = .MsgPreVote then
      (send r { typ := .MsgPreVoteResp, To := m.From, Term := r.Term, Reject := true }, none)
    else (r, none)
  else stepCommon r m

/-! ## Shared lemmas about the log -/

/-- A readable term implies the index is within the log. -/
theorem RaftLog.termOpt_le_lastIndex {l : RaftLog} {i t : Nat}
    (h : l.termOpt i = some t) : i ≤ l.lastIndex := by
  unfold RaftLog.termOpt at h
  unfold RaftLog.lastIndex
  split at h
  · exact absurd h (by simp)
  · split at h
    · next h3 => omega
    · rcases Option.map_eq_some'.mp h with ⟨e, he, -⟩
      unfold RaftLog.entryAt at he
      split at he
      · exact absurd he (by simp)
      · next h4 =>
        rcases List.get?_eq_some.mp he with ⟨hlt, -⟩
        omega

/-- A matched entry id lies within the log. -/
theorem RaftLog.matchTerm_le_lastIndex {l : RaftLog} {e : EntryID}
    (h : l.matchTerm e = true) : e.index ≤ l.lastIndex := by
  unfold RaftLog.matchTerm at h
  exact RaftLog.termOpt_le_lastIndex (by exact_mod_cast of_decide_eq_true h)

/-- Stamping preserves the number of entries. -/
theorem stampEntries_length (t : Nat) : ∀ (b : Nat) (es : List Entry),
    (stampEntries t b es).length = es.length := by
  intro b es
  induction es generalizing b with
  | nil => rfl
  | cons e rest ih => simp [stampEntries, ih]

/-- Stamping preserves the total payload size. -/
theorem payloadsSize_stampEntries (t : Nat) : ∀ (b : Nat) (es : List Entry),
    payloadsSize (stampEntries t b es) = payloadsSize es := by
  intro b es
  induction es generalizing b with
  | nil => rfl
  | cons e rest ih => simp [stampEntries, payloadsSize] at ih ⊢; simp [ih]

/-- A freshly stamped continuation is valid from any anchor whose term is
at most the stamping term. -/
theorem validFrom_stampEntries {t : Nat} : ∀ (es : List Entry) (prev : EntryID),
    prev.term ≤ t → validFrom prev (stampEntries t prev.index es) = true := by
  intro es
  induction es with
  | nil => intro prev h; rfl
  | cons e rest ih =>
    intro prev h
    have hrest := ih { term := t, index := prev.index + 1 } le_rfl
    simp [stampEntries, validFrom, h, hrest]

/-- Every stamped entry carries the stamping term. -/
theorem stampEntries_term {t : Nat} : ∀ {b : Nat} {es : List Entry} {e : Entry},
    e ∈ stampEntries t b es → e.term = t := by
  intro b es
  induction es generalizing b with
  | nil => intro e h; simp [stampEntries] at h
  | cons e' rest ih =>
    intro e h
    simp only [stampEntries, List.mem_cons] at h
    rcases h with h | h
    · simp [h]
    · exact ih h

/-- The slice a leader appends — its own term over freshly stamped
entries anchored at its last entry — is valid whenever the anchor's term
is at most the leader's term. -/
theorem stamped_slice_valid {t : Nat} {prev : EntryID} {es : List Entry}
    (h : prev.term ≤ t) :
    LogSlice.valid { term := t, prev := prev, entries := stampEntries t prev.index es } = true := by
  unfold LogSlice.valid LogSlice.lastEntryID
  simp only [Bool.and_eq_true, decide_eq_true_eq]
  refine ⟨validFrom_stampEntries es prev h, ?_⟩
  cases hl : (stampEntries t prev.index es).getLast? with
  | none => simpa using h
  | some e =>
    obtain ⟨hne, he⟩ := List.mem_getLast?_eq_getLast (Option.mem_def.mpr hl)
    have hmem : e ∈ stampEntries t prev.index es := he ▸ List.getLast_mem hne
    have := stampEntries_term hmem
    simp [this]

/-- A batch with no conf-change entries passes the validation loop
untouched. -/
theorem validateConfChanges_normal (r : RaftState) : ∀ (i : Nat) (es : List Entry),
    (∀ e ∈ es, e.typ = .EntryNormal) → validateConfChanges r i es = (r, es) := by
  intro i es
  induction es generalizing i with
  | nil => intro _; rfl
  | cons e rest ih =>
    intro h
    have he := h e (by simp)
    have hrest := fun e' he' => h e' (List.mem_cons_of_mem _ he')
    unfold validateConfChanges
    rw [if_neg (by simp [he])]
    simp [ih (i + 1) hrest]

/-- A readable term implies the index is at or past the snapshot. -/
theorem RaftLog.termOpt_snap_le {l : RaftLog} {i t : Nat}
    (h : l.termOpt i = some t) : l.snapIndex ≤ i := by
  unfold RaftLog.termOpt at h
  split at h
  · exact absurd h (by simp)
  · omega

/-- The matching prefix is never longer than the slice. -/
theorem RaftLog.matchLen_le_length (l : RaftLog) : ∀ (es : List Entry) (p : Nat),
    l.matchLen p es ≤ es.length := by
  intro es
  induction es with
  | nil => intro p; simp [RaftLog.matchLen]
  | cons e rest ih =>
    intro p
    unfold RaftLog.matchLen
    split
    · have := ih (p + 1); simpa [Nat.add_comm] using Nat.add_le_add_left (ih (p + 1)) 1
    · simp

/-- The matching prefix stays inside the log. -/
theorem RaftLog.matchLen_bound {l : RaftLog} : ∀ (es : List Entry) {p t : Nat},
    l.termOpt p = some t → p + l.matchLen p es ≤ l.lastIndex := by
  intro es
  induction es with
  | nil =>
    intro p t h
    simpa [RaftLog.matchLen] using RaftLog.termOpt_le_lastIndex h
  | cons e rest ih =>
    intro p t h
    unfold RaftLog.matchLen
    split
    · next hc =>
      have := ih (p := p + 1) (t := e.term) hc
      omega
    · simpa using RaftLog.termOpt_le_lastIndex h

/-- `maybeAppend` never moves the commit index. -/
theorem RaftLog.maybeAppend_committed (l : RaftLog) (a : LogSlice) :
    ((l.maybeAppend a).2).committed = l.committed := by
  unfold RaftLog.maybeAppend
  split
  · dsimp only; split <;> rfl
  · rfl

/-- A successful `maybeAppend` leaves the log covering the whole slice:
its last index is at least the slice's. -/
theorem RaftLog.maybeAppend_true_lastIndex {l : RaftLog} {a : LogSlice}
    (h : (l.maybeAppend a).1 = true) :
    a.lastIndex ≤ ((l.maybeAppend a).2).lastIndex := by
  by_cases hm : l.matchTerm a.prev = true
  · have hterm : l.termOpt a.prev.index = some a.prev.term := by
      have := of_decide_eq_true hm
      exact_mod_cast this
    have hbound := RaftLog.matchLen_bound (l := l) a.entries hterm
    have hlen := RaftLog.matchLen_le_length l a.entries a.prev.index
    have hsnap := RaftLog.termOpt_snap_le hterm
    simp only [RaftLog.lastIndex] at hbound
    unfold RaftLog.maybeAppend
    rw [if_pos hm]
    dsimp only
    by_cases hemp :
        (List.drop (l.matchLen a.prev.index a.entries) a.entries).isEmpty = true
    · rw [if_pos hemp]
      rw [List.isEmpty_iff, List.drop_eq_nil_iff] at hemp
      simp only [RaftLog.lastIndex, LogSlice.lastIndex]
      omega
    · rw [if_neg hemp]
      simp only [RaftLog.lastIndex, LogSlice.lastIndex, List.length_append,
        List.length_take, List.length_drop]
      omega
  · unfold RaftLog.maybeAppend at h
    rw [if_neg hm] at h
    simp at h

/-- The quota condition of `increaseUncommittedSize` for a batch. -/
def quotaExceeded (r : RaftState) (es : List Entry) : Prop :=
  0 < r.uncommittedSize ∧ 0 < payloadsSize es ∧
    r.maxUncommittedSize < r.uncommittedSize + payloadsSize es

instance (r : RaftState) (es : List Entry) : Decidable (quotaExceeded r es) := by
  unfold quotaExceeded; infer_instance

/-- Over quota, `appendEntry` drops the proposal with no state change. -/
theorem appendEntry_drop {r : RaftState} {es : List Entry}
    (hdrop : quotaExceeded r es) : appendEntry r es = (false, r) := by
  obtain ⟨h1, h2, h3⟩ := hdrop
  rw [show payloadsSize es =
    payloadsSize (stampEntries r.Term r.raftLog.lastEntryID.index es) from
    (payloadsSize_stampEntries _ _ _).symm] at h2 h3
  simp [appendEntry, increaseUncommittedSize, h1, h2, h3]

/-- Within quota and with a valid anchor, `appendEntry` appends the
stamped batch, charges exactly its payload to the uncommitted quota,
advances the leader's own `Next`, and self-acks into `msgsAfterAppend`. -/
theorem appendEntry_accept {r : RaftState} {es : List Entry}
    (hterm : r.raftLog.lastEntryID.term ≤ r.Term)
    (hnodrop : ¬quotaExceeded r es) :
    appendEntry r es = (true, { r with
      uncommittedSize := r.uncommittedSize + payloadsSize es
      raftLog := { r.raftLog with
        entries := r.raftLog.entries ++ stampEntries r.Term r.raftLog.lastEntryID.index es
        accTermV := r.Term }
      prs := r.prs.map (fun p =>
        if p.1 = r.id then (p.1, { p.2 with Next := r.raftLog.lastIndex + es.length + 1 })
        else p)
      msgsAfterAppend := r.msgsAfterAppend ++
        [{ typ := .MsgAppResp, To := r.id, From := r.id, Term := r.Term,
           Index := r.raftLog.lastIndex + es.length }] }) := by
  have hsize := payloadsSize_stampEntries r.Term r.raftLog.lastEntryID.index es
  have hnodrop' : ¬(0 < r.uncommittedSize ∧
      0 < payloadsSize (stampEntries r.Term r.raftLog.lastEntryID.index es) ∧
      r.maxUncommittedSize < r.uncommittedSize +
        payloadsSize (stampEntries r.Term r.raftLog.lastEntryID.index es)) := by
    rw [hsize]; exact hnodrop
  have hvalid := @stamped_slice_valid r.Term r.raftLog.lastEntryID es hterm
  have hlen := stampEntries_length r.Term r.raftLog.lastEntryID.index es
  unfold appendEntry increaseUncommittedSize RaftLog.append
  simp only [hnodrop', if_false, reduceIte, hvalid, Bool.not_true, and_true, true_and]
  simp [send, setProgress, isVoteFamily, isAfterAppendType, LogSlice.lastIndex,
    RaftLog.lastIndex, RaftLog.lastEntryID, Nat.add_assoc, hvalid,
    stampEntries_length, payloadsSize_stampEntries]

/-! ## The claims -/

/-- C1: for a leader, `maybeCommit` advances the commit index exactly when
the quorum-committed index `idx` of the progress tracker exceeds the
current commit index and the leader's log stores the leader's own term at
`idx`; in that case `committed` becomes `idx` and the call reports `true`,
otherwise the state is unchanged and it reports `false`. -/
theorem maybeCommit_advances_iff (r : RaftState) :
    maybeCommit r =
      (let idx := trkCommitted r
       let ok := decide (r.raftLog.committed < idx) &&
         r.raftLog.matchTerm { term := r.Term, index := idx }
       (ok, if ok then { r with raftLog := { r.raftLog with committed := idx } } else r)) := by
  unfold maybeCommit
  by_cases h1 : trkCommitted r ≤ r.raftLog.committed
  · simp [h1, Nat.not_lt.mpr h1]
  · have h1' : r.raftLog.committed < trkCommitted r := Nat.not_le.mp h1
    by_cases h2 : r.raftLog.matchTerm { term := r.Term, index := trkCommitted r } = true
    · have hle : trkCommitted r ≤ r.raftLog.lastIndex := RaftLog.matchTerm_le_lastIndex h2
      simp [h1, h1', h2, RaftLog.commitTo, Nat.min_eq_left hle]
    · simp [h1, h1', h2]

/-- C9: the disallowed direct transitions fail closed — `becomeLeader`
called as a follower, and `becomeCandidate` / `becomePreCandidate` called
as a leader, panic and perform no transition. -/
theorem disallowed_transitions_panic (r : RaftState) :
    (r.state = .StateFollower → becomeLeader r = panicState r) ∧
    (r.state = .StateLeader → becomeCandidate r = panicState r) ∧
    (r.state = .StateLeader → becomePreCandidate r = panicState r) := by
  refine ⟨fun h => ?_, fun h => ?_, fun h => ?_⟩ <;>
    simp [becomeLeader, becomeCandidate, becomePreCandidate, h]

/-- A default-valued follower state, used as a concrete fixture. -/
def followerFx : RaftState := {}

/-- A leader state fixture. -/
def leaderFx : RaftState := { state := .StateLeader }

theorem disallowed_transitions_panic_witness :
    (followerFx.state = .StateFollower ∧ leaderFx.state = .StateLeader) ∧
    becomeLeader followerFx = panicState followerFx ∧
    becomeCandidate leaderFx = panicState leaderFx ∧
    becomePreCandidate leaderFx = panicState leaderFx :=
  ⟨⟨rfl, rfl⟩, (disallowed_transitions_panic followerFx).1 rfl,
    (disallowed_transitions_panic leaderFx).2.1 rfl,
    (disallowed_transitions_panic leaderFx).2.2 rfl⟩

/-- C7: `send` routes vote responses, pre-vote responses and append
responses into `msgsAfterAppend` and every other outbound message into
`msgs`; a forwarded `MsgProp` keeps no term, campaign-family messages keep
the term their caller set, and every other message is stamped with the
replica's current term. The hypotheses are the call discipline `send`
itself enforces by panicking: campaign-family messages arrive with a term,
all others without, and only response types may be self-addressed. -/
theorem send_routes (r : RaftState) (m : Message)
    (hv : isVoteFamily m.typ → m.Term ≠ 0)
    (hnv : ¬isVoteFamily m.typ → m.Term = 0)
    (hself : ¬isAfterAppendType m.typ → m.To ≠ r.id) :
    send r m =
      (let m1 : Message := { m with
         From := if m.From = 0 then r.id else m.From
         Term := if isVoteFamily m.typ then m.Term
                 else if m.typ = .MsgProp then 0 else r.Term }
       if isAfterAppendType m.typ then
         { r with msgsAfterAppend := r.msgsAfterAppend ++ [m1] }
       else { r with msgs := r.msgs ++ [m1] }) := by
  obtain ⟨mt, mTo, mFrom, mTerm, mLT, mI, mE, mC, mM, mR, mRH, mCtx, mS⟩ := m
  simp only at hv hnv hself ⊢
  by_cases hvf : isVoteFamily mt
  · have hterm := hv hvf
    by_cases haa : isAfterAppendType mt
    · by_cases hfrom : mFrom = 0 <;> simp [send, hvf, hterm, haa, hfrom]
    · have hto := hself haa
      by_cases hfrom : mFrom = 0 <;> simp [send, hvf, hterm, haa, hfrom, hto]
  · have hterm := hnv hvf
    by_cases hp : mt = .MsgProp
    · have haa : ¬isAfterAppendType mt := by
        rw [hp]; intro hc; rcases hc with h | h | h <;> simp at h
      have hto := hself haa
      by_cases hfrom : mFrom = 0 <;>
        simp [send, isVoteFamily, isAfterAppendType, hvf, hterm, haa, hfrom, hto, hp]
    · by_cases haa : isAfterAppendType mt
      · by_cases hfrom : mFrom = 0 <;> simp [send, hvf, hterm, haa, hfrom, hp]
      · have hto := hself haa
        by_cases hfrom : mFrom = 0 <;> simp [send, hvf, hterm, haa, hfrom, hto, hp]

/-- Fixture: a replica about to send a heartbeat-like message. -/
def sendFxR : RaftState := { id := 1, Term := 5 }

/-- Fixture: an outbound `MsgApp` with no term attached yet. -/
def sendFxM : Message := { typ := .MsgApp, To := 2 }

theorem send_routes_witness :
    (¬isVoteFamily sendFxM.typ) ∧ sendFxM.Term = 0 ∧ sendFxM.To ≠ sendFxR.id ∧
    send sendFxR sendFxM =
      (let m1 : Message := { sendFxM with
         From := if sendFxM.From = 0 then sendFxR.id else sendFxM.From
         Term := if isVoteFamily sendFxM.typ then sendFxM.Term
                 else if sendFxM.typ = .MsgProp then 0 else sendFxR.Term }
       if isAfterAppendType sendFxM.typ then
         { sendFxR with msgsAfterAppend := sendFxR.msgsAfterAppend ++ [m1] }
       else { sendFxR with msgs := sendFxR.msgs ++ [m1] }) :=
  ⟨by decide, rfl, by decide,
    send_routes sendFxR sendFxM (fun h => absurd h (by decide)) (fun _ => rfl)
      (fun _ => by decide)⟩

/-- C4: a `MsgVote`/`MsgPreVote` with a higher term that arrives inside
the leader lease — `checkQuorum` on, a known leader, and the election
timer not yet expired — and without the `CampaignTransfer` context is
dropped by `Step` without any state change: term, vote, role and leader
all stay, no response is sent, and no error is returned. -/
theorem step_lease_rejects (r : RaftState) (m : Message)
    (h1 : m.typ = .MsgVote ∨ m.typ = .MsgPreVote)
    (h2 : r.Term < m.Term) (h3 : m.Context ≠ .transfer)
    (h4 : r.checkQuorum = true) (h5 : r.lead ≠ 0)
    (h6 : r.electionElapsed < r.electionTimeout) :
    Step r m = (r, none) := by
  have hz : ¬m.Term = 0 := by omega
  unfold Step
  simp [hz, h1, h2, h3, h4, h5, h6]

/-- Fixture: a follower inside its leader's lease. -/
def leaseFxR : RaftState :=
  { id := 1, Term := 1, lead := 2, checkQuorum := true,
    electionElapsed := 3, electionTimeout := 10 }

/-- Fixture: a higher-term vote request without the transfer context. -/
def leaseFxM : Message := { typ := .MsgVote, From := 3, Term := 2 }

theorem step_lease_rejects_witness :
    ((leaseFxM.typ = .MsgVote ∨ leaseFxM.typ = .MsgPreVote) ∧
      leaseFxR.Term < leaseFxM.Term ∧ leaseFxM.Context ≠ .transfer ∧
      leaseFxR.checkQuorum = true ∧ leaseFxR.lead ≠ 0 ∧
      leaseFxR.electionElapsed < leaseFxR.electionTimeout) ∧
    Step leaseFxR leaseFxM = (leaseFxR, none) :=
  ⟨⟨Or.inl rfl, by decide, by decide, rfl, by decide, by decide⟩,
    step_lease_rejects leaseFxR leaseFxM (Or.inl rfl) (by decide) (by decide)
      rfl (by decide) (by decide)⟩

/-- C10: when a non-leader replica is not promotable, or still has a
committed-but-unapplied conf-change entry, `Step(MsgHup)` returns nil and
is a complete no-op: the state — every field, including both outbound
queues — is returned unchanged. -/
theorem step_hup_noop (r : RaftState)
    (h1 : r.state ≠ .StateLeader)
    (h2 : promotable r = false ∨ hasUnappliedConfChanges r = true) :
    Step r { typ := .MsgHup, From := r.id } = (r, none) := by
  have hstep : Step r { typ := .MsgHup, From := r.id } =
      (hup r (if r.preVote then .campaignPreElection else .campaignElection), none) := by
    simp [Step, stepCommon]
  rw [hstep]
  unfold hup
  rcases h2 with hp | hc
  · simp [h1, hp]
  · by_cases hp : promotable r
    · simp [h1, hp, hc]
    · simp [h1, hp]

/-- Fixture: a follower that is not tracked in its own progress map and
therefore not promotable. -/
def hupFxR : RaftState := { id := 1, Term := 1, prs := [] }

theorem step_hup_noop_witness :
    (hupFxR.state ≠ .StateLeader ∧ promotable hupFxR = false) ∧
    Step hupFxR { typ := .MsgHup, From := hupFxR.id } = (hupFxR, none) :=
  ⟨⟨by decide, rfl⟩, step_hup_noop hupFxR (by decide) (Or.inl rfl)⟩

/-- C2: the vote-granting rule of `Step` for `MsgVote`/`MsgPreVote` after
term normalization (`r.Term ≤ m.Term`): a non-reject response of the
corresponding response type carrying `Term = m.Term` is enqueued exactly
when the vote can be cast — a repeat of the recorded vote, a free vote
with no known leader, or a pre-vote for a strictly higher term — and the
candidate's `(logTerm, index)` is at least as up-to-date as the last local
entry; otherwise a rejection carrying `Term = r.Term` is enqueued. A
granted real vote additionally records `Vote = m.From` and resets the
election timer. Both responses are queued behind durable persistence. -/
theorem step_vote_granting (r : RaftState) (m : Message)
    (h1 : m.typ = .MsgVote ∨ m.typ = .MsgPreVote)
    (h2 : r.Term ≤ m.Term) (h3 : 0 < m.Term) (h4 : 0 < r.Term) :
    stepVoteRequest r m =
      (if (r.Vote = m.From ∨ (r.Vote = 0 ∧ r.lead = 0) ∨
            (m.typ = .MsgPreVote ∧ r.Term < m.Term)) ∧
          r.raftLog.isUpToDate { term := m.LogTerm, index := m.Index } then
        let r1 := { r with msgsAfterAppend := r.msgsAfterAppend ++
          [{ typ := voteRespMsgType m.typ, To := m.From, From := r.id, Term := m.Term }] }
        if m.typ = .MsgVote then { r1 with electionElapsed := 0, Vote := m.From } else r1
      else
        { r with msgsAfterAppend := r.msgsAfterAppend ++
          [{ typ := voteRespMsgType m.typ, To := m.From, From := r.id, Term := r.Term,
             Reject := true }] }) := by
  have hz : ¬m.Term = 0 := by omega
  have hz4 : ¬r.Term = 0 := by omega
  rcases h1 with h1 | h1 <;>
    by_cases hgrant : (r.Vote = m.From ∨ (r.Vote = 0 ∧ r.lead = 0) ∨
        (m.typ = .MsgPreVote ∧ r.Term < m.Term)) ∧
      r.raftLog.isUpToDate { term := m.LogTerm, index := m.Index } <;>
    simp [stepVoteRequest, send, voteRespMsgType, isVoteFamily, isAfterAppendType,
      h1, hgrant, hz, hz4]

/-- Fixture: a blank-slate follower at term 1 with an empty log. -/
def voteFxR : RaftState := { id := 1, Term := 1 }

/-- Fixture: an up-to-date vote request for term 2. -/
def voteFxM : Message := { typ := .MsgVote, From := 2, Term := 2 }

theorem step_vote_granting_witness :
    ((voteFxM.typ = .MsgVote ∨ voteFxM.typ = .MsgPreVote) ∧
      voteFxR.Term ≤ voteFxM.Term ∧ 0 < voteFxM.Term ∧ 0 < voteFxR.Term) ∧
    stepVoteRequest voteFxR voteFxM =
      (if (voteFxR.Vote = voteFxM.From ∨ (voteFxR.Vote = 0 ∧ voteFxR.lead = 0) ∨
            (voteFxM.typ = .MsgPreVote ∧ voteFxR.Term < voteFxM.Term)) ∧
          voteFxR.raftLog.isUpToDate { term := voteFxM.LogTerm, index := voteFxM.Index } then
        let r1 := { voteFxR with msgsAfterAppend := voteFxR.msgsAfterAppend ++
          [{ typ := voteRespMsgType voteFxM.typ, To := voteFxM.From, From := voteFxR.id,
             Term := voteFxM.Term }] }
        if voteFxM.typ = .MsgVote then { r1 with electionElapsed := 0, Vote := voteFxM.From }
        else r1
      else
        { voteFxR with msgsAfterAppend := voteFxR.msgsAfterAppend ++
          [{ typ := voteRespMsgType voteFxM.typ, To := voteFxM.From, From := voteFxR.id,
             Term := voteFxR.Term, Reject := true }] }) :=
  ⟨⟨Or.inl rfl, by decide, by decide, by decide⟩,
    step_vote_granting voteFxR voteFxM (Or.inl rfl) (by decide) (by decide) (by decide)⟩

/-- C5: in the leader's `MsgProp` handling, a conf-change entry at batch
position `i` is rewritten in place to an empty normal entry exactly when a
conf change is already pending (`pendingConfIndex > applied`), or
validation is enabled and the joint checks fail — already joint without
wanting to leave, or not joint while wanting to leave (no changes); an
accepted entry keeps its slot and sets
`pendingConfIndex = lastIndex + i + 1`. -/
theorem confchange_validation (r : RaftState) (i : Nat) (e : Entry) (es : List Entry)
    (h : e.typ = .EntryConfChange ∨ e.typ = .EntryConfChangeV2) :
    validateConfChanges r i (e :: es) =
      (let reject := r.raftLog.applied < r.pendingConfIndex ∨
         (¬r.disableConfChangeValidation ∧
           ((¬r.config.votersOutgoing.isEmpty ∧ ¬e.ccChanges = 0) ∨
            (r.config.votersOutgoing.isEmpty ∧ e.ccChanges = 0)))
       if reject then
         (let p := validateConfChanges r (i + 1) es
          (p.1, { typ := .EntryNormal } :: p.2))
       else
         (let p := validateConfChanges
            { r with pendingConfIndex := r.raftLog.lastIndex + i + 1 } (i + 1) es
          (p.1, e :: p.2))) := by
  have hiff :
      (r.raftLog.applied < r.pendingConfIndex ∨
        ((r.raftLog.applied < r.pendingConfIndex ∨
          (¬r.config.votersOutgoing.isEmpty ∧ ¬e.ccChanges = 0) ∨
          (r.config.votersOutgoing.isEmpty ∧ e.ccChanges = 0)) ∧
          ¬r.disableConfChangeValidation)) ↔
      (r.raftLog.applied < r.pendingConfIndex ∨
        (¬r.disableConfChangeValidation ∧
          ((¬r.config.votersOutgoing.isEmpty ∧ ¬e.ccChanges = 0) ∨
           (r.config.votersOutgoing.isEmpty ∧ e.ccChanges = 0)))) := by
    by_cases hE : r.config.votersOutgoing.isEmpty = true <;> tauto
  unfold validateConfChanges
  rw [if_pos h]
  simp only [not_not]
  rw [if_congr hiff rfl rfl]

/-- Fixture: a leader with one applied entry and no pending conf change,
in a non-joint single-voter configuration. -/
def ccFxR : RaftState :=
  { id := 1, Term := 1, state := .StateLeader, config := { voters := [1] },
    raftLog := { entries := [{ term := 1, index := 1 }], committed := 1, applied := 1,
                 accTermV := 1 } }

/-- Fixture: a conf change carrying one change. -/
def ccFxE : Entry := { typ := .EntryConfChangeV2, ccChanges := 1 }

theorem confchange_validation_witness :
    (ccFxE.typ = .EntryConfChange ∨ ccFxE.typ = .EntryConfChangeV2) ∧
    validateConfChanges ccFxR 0 [ccFxE] =
      (let reject := ccFxR.raftLog.applied < ccFxR.pendingConfIndex ∨
         (¬ccFxR.disableConfChangeValidation ∧
           ((¬ccFxR.config.votersOutgoing.isEmpty ∧ ¬ccFxE.ccChanges = 0) ∨
            (ccFxR.config.votersOutgoing.isEmpty ∧ ccFxE.ccChanges = 0)))
       if reject then
         (let p := validateConfChanges ccFxR 1 []
          (p.1, { typ := .EntryNormal } :: p.2))
       else
         (let p := validateConfChanges
            { ccFxR with pendingConfIndex := ccFxR.raftLog.lastIndex + 0 + 1 } 1 []
          (p.1, ccFxE :: p.2))) :=
  ⟨Or.inr rfl, confchange_validation ccFxR 0 ccFxE [] (Or.inr rfl)⟩

/-- C6: the uncommitted-size quota. `appendEntry` drops a proposal exactly
when the pre-existing `uncommittedSize` is positive, the new payload is
positive, and their sum exceeds `maxUncommittedSize`; a dropped proposal
changes nothing, an accepted one appends the stamped entries and grows
`uncommittedSize` by exactly the payload bytes; and over quota the
leader's `Step(MsgProp)` surfaces `ErrProposalDropped` with its log and
quota untouched. -/
theorem uncommitted_quota (r : RaftState) (es : List Entry)
    (hterm : r.raftLog.lastEntryID.term ≤ r.Term)
    (hstate : r.state = .StateLeader)
    (hprs : (progressOf r r.id).isSome = true)
    (hlt : r.leadTransferee = 0)
    (hne : es ≠ [])
    (hnormal : ∀ e ∈ es, e.typ = .EntryNormal) :
    ((appendEntry r es).1 = false ↔
      (0 < r.uncommittedSize ∧ 0 < payloadsSize es ∧
        r.maxUncommittedSize < r.uncommittedSize + payloadsSize es)) ∧
    ((appendEntry r es).1 = false → (appendEntry r es).2 = r) ∧
    ((appendEntry r es).1 = true →
      (appendEntry r es).2.uncommittedSize = r.uncommittedSize + payloadsSize es ∧
      (appendEntry r es).2.raftLog.entries =
        r.raftLog.entries ++ stampEntries r.Term r.raftLog.lastEntryID.index es) ∧
    ((0 < r.uncommittedSize ∧ 0 < payloadsSize es ∧
        r.maxUncommittedSize < r.uncommittedSize + payloadsSize es) →
      Step r { typ := .MsgProp, Entries := es } = (r, some .ProposalDropped)) := by
  have hne' : ¬(es.isEmpty = true) := by cases es <;> simp_all
  have hpn : ¬((progressOf r r.id).isNone = true) := by
    cases hp : progressOf r r.id
    · rw [hp] at hprs; simp at hprs
    · simp [hp]
  by_cases hdrop : quotaExceeded r es
  · have hae := appendEntry_drop hdrop
    refine ⟨?_, ?_, ?_, ?_⟩
    · rw [hae]; exact iff_of_true rfl hdrop
    · intro _; simp [hae]
    · intro hcontr; rw [hae] at hcontr; simp at hcontr
    · intro _
      have hvnorm := validateConfChanges_normal r 0 es hnormal
      unfold Step stepCommon stepRole stepLeader
      simp [hstate, hne', hpn, hlt, hvnorm, hae]
  · have hae := appendEntry_accept hterm hdrop
    refine ⟨?_, ?_, ?_, ?_⟩
    · rw [hae]; exact iff_of_false (by simp) hdrop
    · intro hcontr; rw [hae] at hcontr; simp at hcontr
    · intro _; rw [hae]; exact ⟨rfl, rfl⟩
    · intro hcontr; exact absurd hcontr hdrop

/-- Fixture: a single-voter leader with one byte-accounted uncommitted
entry and a 2-byte quota. -/
def quotaFxR : RaftState :=
  { id := 1, Term := 1, state := .StateLeader, config := { voters := [1] },
    prs := [(1, { Match := 1, Next := 2 })],
    raftLog := { entries := [{ term := 1, index := 1, payload := 1 }], committed := 1,
                 applied := 1, accTermV := 1 },
    uncommittedSize := 1, maxUncommittedSize := 2, lead := 1 }

/-- Fixture: a 5-byte proposal that overflows the quota. -/
def quotaFxE : Entry := { payload := 5 }

theorem uncommitted_quota_witness :
    (quotaFxR.raftLog.lastEntryID.term ≤ quotaFxR.Term ∧
      quotaFxR.state = .StateLeader ∧
      (progressOf quotaFxR quotaFxR.id).isSome = true ∧
      quotaFxR.leadTransferee = 0 ∧ [quotaFxE] ≠ [] ∧
      (∀ e ∈ [quotaFxE], e.typ = .EntryNormal) ∧
      0 < quotaFxR.uncommittedSize ∧ 0 < payloadsSize [quotaFxE] ∧
      quotaFxR.maxUncommittedSize < quotaFxR.uncommittedSize + payloadsSize [quotaFxE]) ∧
    Step quotaFxR { typ := .MsgProp, Entries := [quotaFxE] } =
      (quotaFxR, some .ProposalDropped) :=
  ⟨⟨by decide, rfl, by decide, rfl, by decide, by decide, by decide, by decide, by decide⟩,
    (uncommitted_quota quotaFxR [quotaFxE] (by decide) rfl (by decide) rfl (by decide)
      (by decide)).2.2.2 ⟨by decide, by decide, by decide⟩⟩

/-- C8: when a candidate wins the real-election quorum and becomes leader,
the transition resets at the current term (term and vote unchanged,
election timer cleared), takes `lead = id` and `StateLeader`, appends
exactly one empty entry stamped with the leader's term at the next index,
self-acks it with a self-addressed `MsgAppResp` in `msgsAfterAppend` (no
immediate message), and sets `pendingConfIndex` to the last log index at
the moment of the transition. -/
theorem leader_election_transition (r : RaftState)
    (h : r.state = .StateCandidate)
    (hterm : r.raftLog.lastEntryID.term ≤ r.Term) :
    (becomeLeader r).state = .StateLeader ∧
    (becomeLeader r).Term = r.Term ∧
    (becomeLeader r).Vote = r.Vote ∧
    (becomeLeader r).lead = r.id ∧
    (becomeLeader r).electionElapsed = 0 ∧
    (becomeLeader r).uncommittedSize = 0 ∧
    (becomeLeader r).pendingConfIndex = r.raftLog.lastIndex ∧
    (becomeLeader r).raftLog.entries = r.raftLog.entries ++
      [{ term := r.Term, index := r.raftLog.lastIndex + 1 }] ∧
    (becomeLeader r).msgs = r.msgs ∧
    (becomeLeader r).msgsAfterAppend = r.msgsAfterAppend ++
      [{ typ := .MsgAppResp, To := r.id, From := r.id, Term := r.Term,
         Index := r.raftLog.lastIndex + 1 }] ∧
    (becomeLeader r).panicked = r.panicked := by
  have h' : ¬(r.state = .StateFollower) := by rw [h]; simp
  have hv := @stamped_slice_valid r.Term r.raftLog.lastEntryID [{}] hterm
  simp only [RaftLog.lastEntryID, RaftLog.lastIndex, stampEntries, Nat.add_assoc] at hv
  simp [becomeLeader, h', reset, setProgress, appendEntry, increaseUncommittedSize,
    RaftLog.append, send, isVoteFamily, isAfterAppendType, stampEntries, payloadsSize,
    RaftLog.lastEntryID, RaftLog.lastIndex, LogSlice.lastIndex, hv,
    Progress.BecomeReplicate, Nat.add_assoc]

/-- Fixture: a candidate at term 2 with a one-entry log from term 1. -/
def electFxR : RaftState :=
  { id := 1, Term := 2, Vote := 1, state := .StateCandidate, config := { voters := [1] },
    prs := [(1, { Match := 1, Next := 2 })],
    raftLog := { entries := [{ term := 1, index := 1 }], committed := 1, applied := 1,
                 accTermV := 1 } }

theorem leader_election_transition_witness :
    (electFxR.state = .StateCandidate ∧
      electFxR.raftLog.lastEntryID.term ≤ electFxR.Term) ∧
    ((becomeLeader electFxR).state = .StateLeader ∧
     (becomeLeader electFxR).Term = electFxR.Term ∧
     (becomeLeader electFxR).Vote = electFxR.Vote ∧
     (becomeLeader electFxR).lead = electFxR.id ∧
     (becomeLeader electFxR).electionElapsed = 0 ∧
     (becomeLeader electFxR).uncommittedSize = 0 ∧
     (becomeLeader electFxR).pendingConfIndex = electFxR.raftLog.lastIndex ∧
     (becomeLeader electFxR).raftLog.entries = electFxR.raftLog.entries ++
       [{ term := electFxR.Term, index := electFxR.raftLog.lastIndex + 1 }] ∧
     (becomeLeader electFxR).msgs = electFxR.msgs ∧
     (becomeLeader electFxR).msgsAfterAppend = electFxR.msgsAfterAppend ++
       [{ typ := .MsgAppResp, To := electFxR.id, From := electFxR.id,
          Term := electFxR.Term, Index := electFxR.raftLog.lastIndex + 1 }] ∧
     (becomeLeader electFxR).panicked = electFxR.panicked) :=
  ⟨⟨rfl, by decide⟩, leader_election_transition electFxR rfl (by decide)⟩

/-- C3: a follower handling a valid `MsgApp` (with a sane `match` claim):
an append whose prev index lies strictly below the commit index is acked
trivially with `index = committed`; a successful `maybeAppend` raises the
commit index to `min(m.commit, lastIndex)` of the appended slice (never
regressing) and acks that last index; a failed `maybeAppend` is rejected
with the hint `findConflictByTerm(min(m.index, lastIndex), m.logTerm)`.
All three responses are `MsgAppResp` in `msgsAfterAppend`. -/
theorem follower_handle_append (r : RaftState) (m : Message)
    (hvalid : (logSliceFromMsgApp m).valid = true)
    (hmatch : m.Match ≤ r.raftLog.lastIndex) :
    (m.Index < r.raftLog.committed →
      handleAppendEntries r m = { r with msgsAfterAppend := r.msgsAfterAppend ++
        [{ typ := .MsgAppResp, To := m.From, From := r.id, Term := r.Term,
           Index := r.raftLog.committed }] }) ∧
    (r.raftLog.committed ≤ m.Index ∧
        (r.raftLog.maybeAppend (logSliceFromMsgApp m)).1 = true →
      handleAppendEntries r m = { r with
        raftLog := ((r.raftLog.maybeAppend (logSliceFromMsgApp m)).2).commitTo
          { term := m.Term, index := min m.Commit (logSliceFromMsgApp m).lastIndex }
        msgsAfterAppend := r.msgsAfterAppend ++
          [{ typ := .MsgAppResp, To := m.From, From := r.id, Term := r.Term,
             Index := (logSliceFromMsgApp m).lastIndex }] } ∧
      (handleAppendEntries r m).raftLog.committed =
        max r.raftLog.committed (min m.Commit (logSliceFromMsgApp m).lastIndex)) ∧
    (r.raftLog.committed ≤ m.Index ∧
        (r.raftLog.maybeAppend (logSliceFromMsgApp m)).1 = false →
      handleAppendEntries r m = { r with msgsAfterAppend := r.msgsAfterAppend ++
        [{ typ := .MsgAppResp, To := m.From, From := r.id, Term := r.Term,
           Index := m.Index, Reject := true,
           RejectHint := (r.raftLog.findConflictByTerm
             (min m.Index r.raftLog.lastIndex) m.LogTerm).1,
           LogTerm := (r.raftLog.findConflictByTerm
             (min m.Index r.raftLog.lastIndex) m.LogTerm).2 }] }) := by
  have hnm : ¬(r.raftLog.lastIndex < m.Match) := not_lt.mpr hmatch
  have hprev : (logSliceFromMsgApp m).prev.index = m.Index := rfl
  refine ⟨fun hlt => ?_, fun ⟨hge, hsucc⟩ => ?_, fun ⟨hge, hfail⟩ => ?_⟩
  · unfold handleAppendEntries
    rw [if_neg hnm, if_neg (by simp [hvalid])]
    rw [if_pos (by rw [hprev]; exact hlt)]
    simp [send, isVoteFamily, isAfterAppendType]
  · have hlast := RaftLog.maybeAppend_true_lastIndex hsucc
    have hcomm := RaftLog.maybeAppend_committed r.raftLog (logSliceFromMsgApp m)
    have heq : handleAppendEntries r m = { r with
        raftLog := ((r.raftLog.maybeAppend (logSliceFromMsgApp m)).2).commitTo
          { term := m.Term, index := min m.Commit (logSliceFromMsgApp m).lastIndex }
        msgsAfterAppend := r.msgsAfterAppend ++
          [{ typ := .MsgAppResp, To := m.From, From := r.id, Term := r.Term,
             Index := (logSliceFromMsgApp m).lastIndex }] } := by
      unfold handleAppendEntries
      rw [if_neg hnm, if_neg (by simp [hvalid])]
      rw [if_neg (by rw [hprev]; omega)]
      rcases hma : r.raftLog.maybeAppend (logSliceFromMsgApp m) with ⟨b, log⟩
      rw [hma] at hsucc; subst hsucc
      simp [send, isVoteFamily, isAfterAppendType, hma]
    have hmin : min m.Commit (logSliceFromMsgApp m).lastIndex ≤
        ((r.raftLog.maybeAppend (logSliceFromMsgApp m)).2).lastIndex :=
      le_trans (Nat.min_le_right _ _) hlast
    have hres : (((r.raftLog.maybeAppend (logSliceFromMsgApp m)).2).commitTo
        { term := m.Term, index := min m.Commit (logSliceFromMsgApp m).lastIndex }).committed
        = max r.raftLog.committed (min m.Commit (logSliceFromMsgApp m).lastIndex) := by
      unfold RaftLog.commitTo
      split
      · next hc =>
        dsimp only
        rw [Nat.min_eq_left hmin]
        rw [hcomm] at hc
        dsimp only at hc
        omega
      · next hc =>
        rw [hcomm]
        rw [hcomm] at hc
        dsimp only at hc
        omega
    exact ⟨heq, by rw [heq]; exact hres⟩
  · unfold handleAppendEntries
    rw [if_neg hnm, if_neg (by simp [hvalid])]
    rw [if_neg (by rw [hprev]; omega)]
    rcases hma : r.raftLog.maybeAppend (logSliceFromMsgApp m) with ⟨b, log⟩
    rw [hma] at hfail; subst hfail
    simp [send, isVoteFamily, isAfterAppendType, hma]

/-- Fixture: an empty-logged follower. -/
def haeFxR : RaftState := { id := 1, Term := 1, lead := 2 }

/-- Fixture: a one-entry append at term 1 with commit index 1. -/
def haeFxM : Message :=
  { typ := .MsgApp, From := 2, To := 1, Term := 1,
    Entries := [{ term := 1, index := 1 }], Commit := 1 }

theorem follower_handle_append_witness :
    ((logSliceFromMsgApp haeFxM).valid = true ∧
      haeFxM.Match ≤ haeFxR.raftLog.lastIndex ∧
      haeFxR.raftLog.committed ≤ haeFxM.Index ∧
      (haeFxR.raftLog.maybeAppend (logSliceFromMsgApp haeFxM)).1 = true) ∧
    (handleAppendEntries haeFxR haeFxM = { haeFxR with
        raftLog := ((haeFxR.raftLog.maybeAppend (logSliceFromMsgApp haeFxM)).2).commitTo
          { term := haeFxM.Term, index := min haeFxM.Commit (logSliceFromMsgApp haeFxM).lastIndex }
        msgsAfterAppend := haeFxR.msgsAfterAppend ++
          [{ typ := .MsgAppResp, To := haeFxM.From, From := haeFxR.id, Term := haeFxR.Term,
             Index := (logSliceFromMsgApp haeFxM).lastIndex }] } ∧
      (handleAppendEntries haeFxR haeFxM).raftLog.committed =
        max haeFxR.raftLog.committed
          (min haeFxM.Commit (logSliceFromMsgApp haeFxM).lastIndex)) :=
  ⟨⟨by decide, by decide, by decide, by decide⟩,
    (follower_handle_append haeFxR haeFxM (by decide) (by decide)).2.1
      ⟨by decide, by decide⟩⟩

end Raft
